import Mathlib

/-!
Shallow embedding of the agent-memory-techniques repository: the three
message-history policies (`BufferWindowMessageHistory`,
`ConversationSummaryMessageHistory`, `ConversationSummaryBufferMessageHistory`),
the Gemini usage callback handler, and the session-store / chat-turn logic of
`app.py`.  Python lists of langchain messages become `List Msg`; the Python
`int` window parameter becomes `Int`; Python slicing `xs[-k:]` / `xs[:-k]` is
modelled by `pySliceFrom` / `pySliceTo` with exact CPython slice-clamping
semantics; the LLM is an abstract function argument (the policies only feed it
data and use the returned content string); exceptions are `Except String`.
-/

/-- Role of a langchain message (`HumanMessage` / `AIMessage` / `SystemMessage`). -/
inductive Role where
  | human
  | ai
  | system
deriving DecidableEq, Repr

/-- A langchain `BaseMessage`: its class (role) and its `content` string. -/
structure Msg where
  role : Role
  content : String
deriving DecidableEq, Repr

/-- CPython semantics of the slice `l[s:]` for an `int` index `s`
(negative indices count from the end and are clamped). -/
def pySliceFrom (s : Int) (l : List α) : List α :=
  let n : Int := l.length
  let start : Int := if s < 0 then max (n + s) 0 else min s n
  l.drop start.toNat

/-- CPython semantics of the slice `l[:s]` for an `int` index `s`
(negative indices count from the end and are clamped). -/
def pySliceTo (s : Int) (l : List α) : List α :=
  let n : Int := l.length
  let stop : Int := if s < 0 then max (n + s) 0 else min s n
  l.take stop.toNat

/-- From `techniques/sliding_window/message_history.py`:
`BufferWindowMessageHistory(BaseChatMessageHistory, BaseModel)` with fields
`messages` and `k`. -/
structure BufferWindowMessageHistory where
  messages : List Msg
  k : Int
deriving DecidableEq, Repr

/-- Method `BufferWindowMessageHistory.add_messages`:
`self.messages.extend(messages); self.messages = self.messages[-self.k:]`. -/
def BufferWindowMessageHistory.add_messages
    (self : BufferWindowMessageHistory) (messages : List Msg) :
    BufferWindowMessageHistory :=
  let ms := self.messages ++ messages
  { self with messages := pySliceFrom (-self.k) ms }

/-- Method `BufferWindowMessageHistory.clear`. -/
def BufferWindowMessageHistory.clear
    (self : BufferWindowMessageHistory) : BufferWindowMessageHistory :=
  { self with messages := [] }

/-- From `techniques/recursive_summarization/message_history.py`:
`ConversationSummaryMessageHistory` (the `llm` field is passed as a function
argument to `add_messages` instead of being stored). -/
structure ConversationSummaryMessageHistory where
  messages : List Msg
deriving DecidableEq, Repr

/-- Method `ConversationSummaryMessageHistory.add_messages`.  The LLM invocation on
the formatted summary prompt is abstracted as `llm existing_summary new`,
where `existing_summary` is the (already extended) `self.messages` fed into
the `{existing_summary}` slot and `new` the batch fed into `{messages}`; the
returned string is the summary content.  Also returns how many LLM calls the
operation made. -/
def ConversationSummaryMessageHistory.add_messages
    (llm : List Msg → List Msg → String)
    (self : ConversationSummaryMessageHistory) (messages : List Msg) :
    ConversationSummaryMessageHistory × Nat :=
  let ms := self.messages ++ messages
  let new_summary := llm ms messages
  ({ messages := [⟨Role.system, new_summary⟩] }, 1)

/-- Method `ConversationSummaryMessageHistory.clear`. -/
def ConversationSummaryMessageHistory.clear
    (self : ConversationSummaryMessageHistory) : ConversationSummaryMessageHistory :=
  { self with messages := [] }

/-- From `techniques/incremental_compression/message_history.py`:
`ConversationSummaryBufferMessageHistory` with fields `messages` and `k`
(the `llm` field is passed as a function argument to `add_messages`). -/
structure ConversationSummaryBufferMessageHistory where
  messages : List Msg
  k : Int
deriving DecidableEq, Repr

/-- Method `ConversationSummaryBufferMessageHistory.add_messages`, line for line:
pop an existing leading `SystemMessage` summary, extend with the new batch,
on overflow (`len > k`) split off the oldest messages, and only in the
overflow case summarize (`llm existing_summary old_messages`, abstracting the
prompt formatting and the `existing_summary or "No previous summary"`
default) and prepend the fresh summary.  The early `return` on the
no-overflow path (`old_messages is None`) discards the popped summary.
Also returns how many LLM calls the operation made. -/
def ConversationSummaryBufferMessageHistory.add_messages
    (llm : Option Msg → List Msg → String)
    (self : ConversationSummaryBufferMessageHistory) (messages : List Msg) :
    ConversationSummaryBufferMessageHistory × Nat :=
  let pop : Option Msg × List Msg :=
    match self.messages with
    | m :: rest => if m.role = Role.system then (some m, rest) else (none, m :: rest)
    | [] => (none, [])
  let existing_summary := pop.1
  let ms := pop.2 ++ messages
  let step : List Msg × Option (List Msg) :=
    if (ms.length : Int) > self.k then
      (pySliceFrom (-self.k) ms, some (pySliceTo (-self.k) ms))
    else (ms, none)
  match step.2 with
  | none => ({ self with messages := step.1 }, 0)
  | some old_messages =>
      let new_summary := llm existing_summary old_messages
      ({ self with messages := ⟨Role.system, new_summary⟩ :: step.1 }, 1)

/-- Method `ConversationSummaryBufferMessageHistory.clear`. -/
def ConversationSummaryBufferMessageHistory.clear
    (self : ConversationSummaryBufferMessageHistory) :
    ConversationSummaryBufferMessageHistory :=
  { self with messages := [] }

/-- Gemini usage metadata dict (`prompt_token_count`, `candidates_token_count`,
`total_token_count`); each field is `none` when the key is absent
(`usage.get(key, default)` supplies the default). -/
structure UsageMetadata where
  prompt_token_count : Option Nat
  candidates_token_count : Option Nat
  total_token_count : Option Nat
deriving DecidableEq, Repr

/-- The `llm_output` dict of a langchain `LLMResult`, reduced to the one key
`on_llm_end` reads. -/
structure LLMOutput where
  usage_metadata : Option UsageMetadata
deriving DecidableEq, Repr

/-- A langchain `LLMResult`, reduced to the `llm_output` field `on_llm_end`
reads (`none` models a falsy `llm_output`). -/
structure LLMResult where
  llm_output : Option LLMOutput
deriving DecidableEq, Repr

/-- From `callbacks/gemini_info.py`: the counters of `GeminiCallbackHandler`.
The `total_cost` field is omitted: it is initialised to `0.0` and never
updated anywhere in the source. -/
structure GeminiCallbackHandler where
  total_tokens : Nat
  prompt_tokens : Nat
  completion_tokens : Nat
  successful_requests : Nat
deriving DecidableEq, Repr

/-- Method `GeminiCallbackHandler.on_llm_end`: increments `successful_requests`
first, then returns early when `llm_output` is falsy or carries no (falsy)
`usage_metadata`; otherwise adds the three token counts (with `get` defaults
`0`, `0`, and `prompt + completion`). -/
def GeminiCallbackHandler.on_llm_end
    (self : GeminiCallbackHandler) (response : LLMResult) : GeminiCallbackHandler :=
  let self := { self with successful_requests := self.successful_requests + 1 }
  let usage : Option UsageMetadata :=
    match response.llm_output with
    | some out => out.usage_metadata
    | none => none
  match usage with
  | none => self
  | some u =>
      let prompt_toks := u.prompt_token_count.getD 0
      let completion_toks := u.candidates_token_count.getD 0
      let total_toks := u.total_token_count.getD (prompt_toks + completion_toks)
      { self with
          prompt_tokens := self.prompt_tokens + prompt_toks,
          completion_tokens := self.completion_tokens + completion_toks,
          total_tokens := self.total_tokens + total_toks }

/-- A Python-object-identity model for the handler: a heap mapping reference
ids to handler states. -/
def HandlerHeap := List (Nat × GeminiCallbackHandler)
deriving DecidableEq

/-- Look a handler up by reference id. -/
def lookupHandler (r : Nat) : HandlerHeap → Option GeminiCallbackHandler
  | [] => none
  | (r0, h) :: rest => if r0 = r then some h else lookupHandler r rest

/-- Overwrite the handler stored at a reference id. -/
def writeHandler (r : Nat) (h : GeminiCallbackHandler) : HandlerHeap → HandlerHeap
  | [] => []
  | (r0, h0) :: rest =>
      if r0 = r then (r0, h) :: rest else (r0, h0) :: writeHandler r h rest

/-- Run `on_llm_end` on the handler a reference id points to. -/
def recordLLMEnd (heap : HandlerHeap) (r : Nat) (response : LLMResult) : HandlerHeap :=
  match lookupHandler r heap with
  | none => heap
  | some h => writeHandler r (h.on_llm_end response) heap

/-- Method `GeminiCallbackHandler.__copy__`: `return self` — the same reference, no
allocation, heap untouched. -/
def GeminiCallbackHandler.pyCopy (heap : HandlerHeap) (r : Nat) : HandlerHeap × Nat :=
  (heap, r)

/-- Method `GeminiCallbackHandler.__deepcopy__`: `return self` — the same reference,
no allocation, heap untouched. -/
def GeminiCallbackHandler.pyDeepcopy (heap : HandlerHeap) (r : Nat) : HandlerHeap × Nat :=
  (heap, r)

/-- One of the four values of the memory-technique dropdown of app.py, i.e. the
policy kinds `get_session_history` recognises. -/
def knownKinds : List String :=
  ["In-Memory (No Limit)", "Sliding Window", "Recursive Summarization",
   "Summary + Sliding Window"]

/-- A value of the global `chat_stores` dict: one of the four history-policy
objects (`InMemoryChatMessageHistory` simply accumulates messages). -/
inductive PolicyInstance where
  | inMemory (messages : List Msg)
  | bufferWindow (h : BufferWindowMessageHistory)
  | summary (h : ConversationSummaryMessageHistory)
  | summaryBuffer (h : ConversationSummaryBufferMessageHistory)
deriving DecidableEq, Repr

/-- The stored verbatim message list of a policy instance. -/
def PolicyInstance.messages : PolicyInstance → List Msg
  | inMemory ms => ms
  | bufferWindow h => h.messages
  | summary h => h.messages
  | summaryBuffer h => h.messages

/-- Dispatch of `add_messages` on the policy class, also counting LLM
summarization calls.  `sumR` / `sumB` are the abstract summarizer functions
of the recursive-summary and summary-buffer classes. -/
def PolicyInstance.add_messages (sumR : List Msg → List Msg → String)
    (sumB : Option Msg → List Msg → String) :
    PolicyInstance → List Msg → PolicyInstance × Nat
  | inMemory ms, new => (inMemory (ms ++ new), 0)
  | bufferWindow h, new => (bufferWindow (h.add_messages new), 0)
  | summary h, new =>
      let r := h.add_messages sumR new
      (summary r.1, r.2)
  | summaryBuffer h, new =>
      let r := h.add_messages sumB new
      (summaryBuffer r.1, r.2)

/-- The global `chat_stores` dict of app.py plus an allocation counter that
models Python object identity: each created policy object gets a fresh id. -/
structure ChatStores where
  entries : List (String × Nat)
  heap : List (Nat × PolicyInstance)
  nextId : Nat
deriving DecidableEq, Repr

/-- Dict lookup in `chat_stores` (keys are unique, see `ChatStores`). -/
def lookupKey (key : String) : List (String × Nat) → Option Nat
  | [] => none
  | (k0, v) :: rest => if k0 = key then some v else lookupKey key rest

/-- Heap lookup by object id. -/
def lookupId (i : Nat) : List (Nat × PolicyInstance) → Option PolicyInstance
  | [] => none
  | (i0, v) :: rest => if i0 = i then some v else lookupId i rest

/-- Overwrite the policy object stored at an id. -/
def writeId (i : Nat) (inst : PolicyInstance) :
    List (Nat × PolicyInstance) → List (Nat × PolicyInstance)
  | [] => []
  | (i0, v) :: rest =>
      if i0 = i then (i0, inst) :: rest else (i0, v) :: writeId i inst rest

/-- From app.py: `key = f"{session_id}_{memory_type}_{window_size}"`. -/
def sessionKey (session_id memory_type : String) (window_size : Int) : String :=
  session_id ++ "_" ++ memory_type ++ "_" ++ toString window_size

/-- The `if/elif` chain of `get_session_history`: the freshly constructed
(empty) policy object for a recognised kind, `none` for an unknown kind. -/
def freshInstance (memory_type : String) (window_size : Int) : Option PolicyInstance :=
  if memory_type = "In-Memory (No Limit)" then some (PolicyInstance.inMemory [])
  else if memory_type = "Sliding Window" then
    some (PolicyInstance.bufferWindow ⟨[], window_size⟩)
  else if memory_type = "Recursive Summarization" then
    some (PolicyInstance.summary ⟨[]⟩)
  else if memory_type = "Summary + Sliding Window" then
    some (PolicyInstance.summaryBuffer ⟨[], window_size⟩)
  else none

/-- Function `get_session_history` of app.py: insert a fresh policy object under the key
if the key is absent and the kind is recognised, then `return
chat_stores[key]` — which for a still-absent key raises `KeyError` (the
error string models the Python str rendering of that `KeyError`). -/
def get_session_history (session_id memory_type : String) (window_size : Int)
    (st : ChatStores) : Except String (ChatStores × Nat) :=
  let key := sessionKey session_id memory_type window_size
  let st1 :=
    if (lookupKey key st.entries).isSome then st
    else
      match freshInstance memory_type window_size with
      | some inst =>
          { entries := (key, st.nextId) :: st.entries,
            heap := (st.nextId, inst) :: st.heap,
            nextId := st.nextId + 1 }
      | none => st
  match lookupKey key st1.entries with
  | some i => Except.ok (st1, i)
  | none => Except.error ("KeyError: " ++ key)

/-- Python `str.strip()`: drop leading and trailing whitespace (stated over
the character list so that it computes by structural recursion). -/
def pyStrip (s : String) : String :=
  ⟨((s.data.dropWhile Char.isWhitespace).reverse.dropWhile
      Char.isWhitespace).reverse⟩

/-- A gradio chat-history entry: a `{"role": ..., "content": ...}` dict. -/
structure ChatTurn where
  role : String
  content : String
deriving DecidableEq, Repr

/-- The `chain.invoke` step of a turn (the `RunnableWithMessageHistory`
around `prompt | llm | StrOutputParser()`): fetch or create the session
history (which may raise `KeyError` for an unknown policy kind), run the LLM
(`generate` — its outcome is the `llmResult` parameter), and on success
append the human input and the AI output to the session history.  Returns
the store as mutated so far together with the outcome. -/
def chain_invoke (sumR : List Msg → List Msg → String)
    (sumB : Option Msg → List Msg → String)
    (message session_id memory_type : String) (window_size : Int)
    (st : ChatStores) (llmResult : Except String String) :
    ChatStores × Except String String :=
  match get_session_history session_id memory_type window_size st with
  | Except.error e => (st, Except.error e)
  | Except.ok (st1, i) =>
      match llmResult with
      | Except.error e => (st1, Except.error e)
      | Except.ok output =>
          match lookupId i st1.heap with
          | none => (st1, Except.error ("KeyError: object " ++ toString i))
          | some inst =>
              let r := inst.add_messages sumR sumB
                [⟨Role.human, message⟩, ⟨Role.ai, output⟩]
              ({ st1 with heap := writeId i r.1 st1.heap }, Except.ok output)

/-- What the `chat` function of app.py returns, reduced to the data the spec talks about:
the gradio history, the computed `response_text` (`""` on the blank-message
early return), and the post-call state of the global store.  The HTML
stats/memory renderings and the cleared-textbox value are elided. -/
structure ChatReturn where
  history : List ChatTurn
  response_text : String
  stores : ChatStores
deriving DecidableEq, Repr

/-- Function `chat` of app.py, control flow line for line: blank-message early return;
otherwise the `try` block runs `chain.invoke` and on success appends the user
message and the response to the gradio history, after which the remaining
steps of the `try` block (the `cb.get_total_usage()` usage snapshot — a
method the source never defines — and the HTML rendering) may themselves
raise: their outcome is the `postResult` parameter.  Any exception lands in
the `except` branch, which sets `response_text = "Error: " + str(e)` and
appends the user message and that error text. -/
def chat (sumR : List Msg → List Msg → String)
    (sumB : Option Msg → List Msg → String)
    (message : String) (history : List ChatTurn)
    (memory_type : String) (window_size : Int) (session_id : String)
    (st : ChatStores) (llmResult : Except String String)
    (postResult : Except String Unit) : ChatReturn :=
  if pyStrip message = "" then ⟨history, "", st⟩
  else
    let r := chain_invoke sumR sumB message session_id memory_type window_size
      st llmResult
    match r.2 with
    | Except.ok response_text =>
        let history1 := history ++
          [⟨"user", message⟩, ⟨"assistant", response_text⟩]
        match postResult with
        | Except.ok _ => ⟨history1, response_text, r.1⟩
        | Except.error e =>
            let response_text2 := "Error: " ++ e
            ⟨history1 ++ [⟨"user", message⟩, ⟨"assistant", response_text2⟩],
             response_text2, r.1⟩
    | Except.error e =>
        let response_text := "Error: " ++ e
        ⟨history ++ [⟨"user", message⟩, ⟨"assistant", response_text⟩],
         response_text, r.1⟩

/-- Decimal digit characters of `n`, most significant first: the list that
the core function `Nat.toDigitsCore 10` produces, restated without fuel. -/
def digitsOf (n : Nat) : List Char :=
  if h : n / 10 = 0 then [Nat.digitChar (n % 10)]
  else digitsOf (n / 10) ++ [Nat.digitChar (n % 10)]
termination_by n
decreasing_by
  have hpos : 0 < n := by
    rcases Nat.eq_zero_or_pos n with h0 | h0
    · subst h0; simp at h
    · exact h0
  exact Nat.div_lt_self hpos (by decide)

/-- Numeric value of a digit character. -/
def charVal (c : Char) : Nat := c.toNat - 48

/-- Value of a most-significant-first digit-character list. -/
def valOf (cs : List Char) : Nat :=
  cs.foldl (fun acc c => acc * 10 + charVal c) 0

/-- Well-formedness of the store: every dict entry points below the
allocation counter.  Holds for the empty store and is preserved by
`get_session_history`. -/
def ChatStores.WF (st : ChatStores) : Prop :=
  ∀ p ∈ st.entries, p.2 < st.nextId

/-- The store `get_session_history` produces when the key is absent and the
kind is recognised: the fresh object is allocated at `st.nextId`. -/
def ChatStores.insertNew (st : ChatStores) (key : String)
    (inst : PolicyInstance) : ChatStores :=
  { entries := (key, st.nextId) :: st.entries,
    heap := (st.nextId, inst) :: st.heap,
    nextId := st.nextId + 1 }

/-- A sequence of `add_messages` calls on a `SummaryWindow` history,
accumulating the number of LLM summarization calls. -/
def runAppends (llm : Option Msg → List Msg → String)
    (h : ConversationSummaryBufferMessageHistory) (batches : List (List Msg)) :
    ConversationSummaryBufferMessageHistory × Nat :=
  batches.foldl
    (fun p b =>
      let q := ConversationSummaryBufferMessageHistory.add_messages llm p.1 b
      (q.1, p.2 + q.2))
    (h, 0)

theorem toDigitsCore_eq_digitsOf :
    ∀ (fuel n : Nat) (ds : List Char), n < fuel →
      Nat.toDigitsCore 10 fuel n ds = digitsOf n ++ ds := by
  intro fuel
  induction fuel with
  | zero => intro n ds h; exact absurd h (Nat.not_lt_zero n)
  | succ f ih =>
      intro n ds h
      rw [digitsOf]
      simp only [Nat.toDigitsCore]
      by_cases h0 : n / 10 = 0
      · simp [h0]
      · have hlt : n / 10 < f := by
          have h1 : n / 10 < n := Nat.div_lt_self (by omega) (by decide)
          omega
        simp [h0, ih (n / 10) _ hlt, List.append_assoc]

theorem charVal_digitChar (d : Nat) (h : d < 10) :
    charVal (Nat.digitChar d) = d := by
  interval_cases d <;> decide

theorem valOf_digitsOf (n : Nat) : valOf (digitsOf n) = n := by
  induction n using Nat.strong_induction_on with
  | _ n ih =>
    rw [digitsOf]
    by_cases h0 : n / 10 = 0
    · have hn : n < 10 := by omega
      simp [h0, valOf, charVal_digitChar n hn, Nat.mod_eq_of_lt hn]
    · have hlt : n / 10 < n := Nat.div_lt_self (by omega) (by decide)
      have ihv := ih (n / 10) hlt
      have hm : n % 10 < 10 := Nat.mod_lt _ (by decide)
      simp only [h0, valOf, List.foldl_append, dite_false, if_neg]
      simp only [valOf] at ihv
      simp [ihv, charVal_digitChar (n % 10) hm]
      omega

theorem asString_inj {l1 l2 : List Char} (h : l1.asString = l2.asString) :
    l1 = l2 :=
  congrArg String.data h

theorem natRepr_eq_digitsOf (n : Nat) : Nat.repr n = (digitsOf n).asString := by
  unfold Nat.repr Nat.toDigits
  rw [toDigitsCore_eq_digitsOf (n + 1) n [] (Nat.lt_succ_self n)]
  simp

theorem natRepr_inj {m n : Nat} (h : Nat.repr m = Nat.repr n) : m = n := by
  have h2 : digitsOf m = digitsOf n := by
    apply asString_inj
    rw [← natRepr_eq_digitsOf, ← natRepr_eq_digitsOf]
    exact h
  have h3 := congrArg valOf h2
  rwa [valOf_digitsOf, valOf_digitsOf] at h3

theorem digitsOf_mem {n : Nat} {c : Char} (hc : c ∈ digitsOf n) :
    ∃ d, d < 10 ∧ c = Nat.digitChar d := by
  induction n using Nat.strong_induction_on with
  | _ n ih =>
    rw [digitsOf] at hc
    by_cases h0 : n / 10 = 0
    · simp [h0] at hc
      exact ⟨n % 10, Nat.mod_lt _ (by decide), hc⟩
    · simp [h0] at hc
      rcases hc with hc | hc
      · exact ih (n / 10) (Nat.div_lt_self (by omega) (by decide)) hc
      · exact ⟨n % 10, Nat.mod_lt _ (by decide), hc⟩

theorem digitChar_ne_dash (d : Nat) (h : d < 10) : Nat.digitChar d ≠ '-' := by
  interval_cases d <;> decide

theorem string_data_append (a b : String) : (a ++ b).data = a.data ++ b.data := by
  cases a; cases b; rfl

theorem string_ext {a b : String} (h : a.data = b.data) : a = b := by
  cases a; cases b; exact congrArg String.mk h

theorem natRepr_data (n : Nat) : (Nat.repr n).data = digitsOf n := by
  rw [natRepr_eq_digitsOf]; rfl

theorem natRepr_no_dash (n : Nat) : '-' ∉ (Nat.repr n).data := by
  rw [natRepr_data]
  intro hmem
  obtain ⟨d, hd, he⟩ := digitsOf_mem hmem
  exact digitChar_ne_dash d hd he.symm

theorem intRepr_inj {a b : Int} (h : Int.repr a = Int.repr b) : a = b := by
  cases a with
  | ofNat m =>
      cases b with
      | ofNat n =>
          simp only [Int.repr] at h
          exact congrArg Int.ofNat (natRepr_inj h)
      | negSucc n =>
          exfalso
          simp only [Int.repr] at h
          have hd := congrArg String.data h
          rw [string_data_append] at hd
          apply natRepr_no_dash m
          rw [hd]
          exact List.mem_append_left _ (by decide)
  | negSucc m =>
      cases b with
      | ofNat n =>
          exfalso
          simp only [Int.repr] at h
          have hd := congrArg String.data h
          rw [string_data_append] at hd
          apply natRepr_no_dash n
          rw [← hd]
          exact List.mem_append_left _ (by decide)
      | negSucc n =>
          simp only [Int.repr] at h
          have hd := congrArg String.data h
          rw [string_data_append, string_data_append] at hd
          have h2 : (Nat.repr (m + 1)).data = (Nat.repr (n + 1)).data :=
            List.append_cancel_left hd
          have h3 := natRepr_inj (string_ext h2)
          exact congrArg Int.negSucc (by omega)

theorem toString_int_eq (w : Int) : toString w = Int.repr w := rfl

/-- Key function `sessionKey` is injective in the window-size component: a different
window size always yields a different dict key. -/
theorem sessionKey_inj_window {sid kind : String} {w1 w2 : Int}
    (h : sessionKey sid kind w1 = sessionKey sid kind w2) : w1 = w2 := by
  apply intRepr_inj
  have hd := congrArg String.data h
  simp only [sessionKey, string_data_append, List.append_assoc] at hd
  have h1 := List.append_cancel_left hd
  have h2 := List.append_cancel_left h1
  have h3 := List.append_cancel_left h2
  have h4 := List.append_cancel_left h3
  have h5 := string_ext h4
  rw [toString_int_eq, toString_int_eq] at h5
  exact h5

theorem get_session_history_hit {sid kind : String} {w : Int} {st : ChatStores}
    {i : Nat} (h : lookupKey (sessionKey sid kind w) st.entries = some i) :
    get_session_history sid kind w st = Except.ok (st, i) := by
  simp [get_session_history, h]

theorem get_session_history_miss_known {sid kind : String} {w : Int}
    {st : ChatStores} {inst : PolicyInstance}
    (h : lookupKey (sessionKey sid kind w) st.entries = none)
    (hf : freshInstance kind w = some inst) :
    get_session_history sid kind w st =
      Except.ok (st.insertNew (sessionKey sid kind w) inst, st.nextId) := by
  simp [get_session_history, h, hf, lookupKey, ChatStores.insertNew]

theorem get_session_history_miss_unknown {sid kind : String} {w : Int}
    {st : ChatStores}
    (h : lookupKey (sessionKey sid kind w) st.entries = none)
    (hf : freshInstance kind w = none) :
    get_session_history sid kind w st =
      Except.error ("KeyError: " ++ sessionKey sid kind w) := by
  simp [get_session_history, h, hf]

theorem freshInstance_of_known {kind : String} (w : Int)
    (h : kind ∈ knownKinds) : ∃ inst, freshInstance kind w = some inst := by
  simp only [knownKinds, List.mem_cons, List.not_mem_nil, or_false] at h
  rcases h with h | h | h | h
  all_goals subst h
  all_goals simp [freshInstance]

theorem freshInstance_empty {kind : String} {w : Int} {inst : PolicyInstance}
    (h : freshInstance kind w = some inst) : inst.messages = [] := by
  unfold freshInstance at h
  split at h
  · cases h; rfl
  · split at h
    · cases h; rfl
    · split at h
      · cases h; rfl
      · split at h
        · cases h; rfl
        · cases h

theorem lookupKey_mem {key : String} {i : Nat} :
    ∀ {l : List (String × Nat)}, lookupKey key l = some i → ∃ p ∈ l, p.2 = i := by
  intro l
  induction l with
  | nil => intro h; cases h
  | cons p rest ih =>
      obtain ⟨k0, v⟩ := p
      intro h
      by_cases hk : k0 = key
      · simp only [lookupKey, if_pos hk] at h
        injection h with hv
        exact ⟨(k0, v), List.mem_cons_self _ rest, hv⟩
      · simp only [lookupKey, if_neg hk] at h
        obtain ⟨q, hq, hv⟩ := ih h
        exact ⟨q, List.mem_cons_of_mem _ hq, hv⟩

theorem lookupKey_lt {st : ChatStores} (hwf : st.WF) {key : String} {i : Nat}
    (h : lookupKey key st.entries = some i) : i < st.nextId := by
  obtain ⟨p, hp, hv⟩ := lookupKey_mem h
  exact hv ▸ hwf p hp

/-- The two-call get-or-create scenario behind claims C8 and C9: for a
recognised kind, once a call has produced the instance for window `w1`, a
repeat call with the same key returns the identity-same instance id and
leaves the store untouched, while a call with a different window `w2` (whose
key is not yet in the store) allocates a distinct, fresh, empty instance. -/
theorem get_or_create_scenario {st : ChatStores} {sid kind : String}
    {w1 w2 : Int} {st1 : ChatStores} {i1 : Nat}
    (hwf : st.WF) (hk : kind ∈ knownKinds) (hw : w1 ≠ w2)
    (h2 : lookupKey (sessionKey sid kind w2) st.entries = none)
    (h1 : get_session_history sid kind w1 st = Except.ok (st1, i1)) :
    get_session_history sid kind w1 st1 = Except.ok (st1, i1) ∧
    ∃ st2 i2 inst, get_session_history sid kind w2 st1 = Except.ok (st2, i2) ∧
      i2 ≠ i1 ∧ lookupId i2 st2.heap = some inst ∧ inst.messages = [] := by
  obtain ⟨inst1, hf1⟩ := freshInstance_of_known w1 hk
  obtain ⟨inst2, hf2⟩ := freshInstance_of_known w2 hk
  have hkey : sessionKey sid kind w1 ≠ sessionKey sid kind w2 :=
    fun hc => hw (sessionKey_inj_window hc)
  cases hc : lookupKey (sessionKey sid kind w1) st.entries with
  | some j =>
      have hget := get_session_history_hit hc
      rw [h1] at hget
      obtain ⟨hst, hi⟩ : st1 = st ∧ i1 = j := by
        cases hget; exact ⟨rfl, rfl⟩
      subst hst; subst hi
      refine ⟨get_session_history_hit hc, ?_⟩
      have hlt : i1 < st1.nextId := lookupKey_lt hwf hc
      refine ⟨st1.insertNew (sessionKey sid kind w2) inst2, st1.nextId, inst2,
        get_session_history_miss_known h2 hf2, by omega, ?_, freshInstance_empty hf2⟩
      simp [ChatStores.insertNew, lookupId]
  | none =>
      have hget := get_session_history_miss_known hc hf1
      rw [h1] at hget
      obtain ⟨hst, hi⟩ :
          st1 = st.insertNew (sessionKey sid kind w1) inst1 ∧ i1 = st.nextId := by
        cases hget; exact ⟨rfl, rfl⟩
      subst hst; subst hi
      have hl1 : lookupKey (sessionKey sid kind w1)
          (st.insertNew (sessionKey sid kind w1) inst1).entries = some st.nextId := by
        simp [ChatStores.insertNew, lookupKey]
      have hl2 : lookupKey (sessionKey sid kind w2)
          (st.insertNew (sessionKey sid kind w1) inst1).entries = none := by
        simp only [ChatStores.insertNew, lookupKey]
        rw [if_neg hkey]
        exact h2
      refine ⟨get_session_history_hit hl1, ?_⟩
      refine ⟨(st.insertNew (sessionKey sid kind w1) inst1).insertNew
          (sessionKey sid kind w2) inst2,
        (st.insertNew (sessionKey sid kind w1) inst1).nextId, inst2,
        get_session_history_miss_known hl2 hf2, ?_, ?_, freshInstance_empty hf2⟩
      · simp [ChatStores.insertNew]
      · simp [ChatStores.insertNew, lookupId]

theorem csbmh_add_no_overflow (llm : Option Msg → List Msg → String)
    {k : Int} {acc b : List Msg}
    (hsys : ∀ m ∈ acc, m.role ≠ Role.system)
    (hlen : ((acc ++ b).length : Int) ≤ k) :
    ConversationSummaryBufferMessageHistory.add_messages llm ⟨acc, k⟩ b
      = (⟨acc ++ b, k⟩, 0) := by
  have hnot : ¬ (((acc ++ b).length : Int) > k) := by omega
  cases acc with
  | nil =>
      simp only [ConversationSummaryBufferMessageHistory.add_messages]
      rw [if_neg hnot]
  | cons m rest =>
      have hm : ¬ (m.role = Role.system) := hsys m (List.mem_cons_self m rest)
      simp only [ConversationSummaryBufferMessageHistory.add_messages]
      rw [if_neg hm]
      simp only []
      rw [if_neg hnot]

theorem runAppends_no_overflow (llm : Option Msg → List Msg → String) (k : Int) :
    ∀ (batches : List (List Msg)) (acc : List Msg) (c : Nat),
      (∀ m ∈ acc, m.role ≠ Role.system) →
      (∀ m ∈ batches.flatten, m.role ≠ Role.system) →
      ((acc.length + batches.flatten.length : Int) ≤ k) →
      batches.foldl
          (fun p b =>
            let q := ConversationSummaryBufferMessageHistory.add_messages llm p.1 b
            (q.1, p.2 + q.2))
          (⟨acc, k⟩, c)
        = (⟨acc ++ batches.flatten, k⟩, c) := by
  intro batches
  induction batches with
  | nil => intro acc c _ _ _; simp
  | cons b bs ih =>
      intro acc c hacc hbat hlen
      have hjoin : (b :: bs).flatten = b ++ bs.flatten := by simp
      have hb : ∀ m ∈ b, m.role ≠ Role.system := by
        intro m hm
        exact hbat m (by rw [hjoin]; exact List.mem_append_left _ hm)
      have hbs : ∀ m ∈ bs.flatten, m.role ≠ Role.system := by
        intro m hm
        exact hbat m (by rw [hjoin]; exact List.mem_append_right _ hm)
      have hlen1 : ((acc ++ b).length : Int) ≤ k := by
        rw [hjoin] at hlen
        simp only [List.length_append] at hlen ⊢
        push_cast at hlen ⊢
        omega
      have hstep := csbmh_add_no_overflow llm hacc hlen1
      simp only [List.foldl_cons, hstep, Nat.add_zero]
      have hacc1 : ∀ m ∈ acc ++ b, m.role ≠ Role.system := by
        intro m hm
        rcases List.mem_append.mp hm with hm | hm
        · exact hacc m hm
        · exact hb m hm
      have hlen2 : (((acc ++ b).length + bs.flatten.length : Nat) : Int) ≤ k := by
        rw [hjoin] at hlen
        simp only [List.length_append] at hlen ⊢
        push_cast at hlen ⊢
        omega
      have := ih (acc ++ b) c hacc1 hbs (by exact_mod_cast hlen2)
      rw [this, hjoin, List.append_assoc]

theorem get_session_history_known_ok {sid kind : String} {w : Int}
    {st : ChatStores} (hk : kind ∈ knownKinds) :
    ∃ st1 i, get_session_history sid kind w st = Except.ok (st1, i) := by
  obtain ⟨inst, hf⟩ := freshInstance_of_known w hk
  cases hc : lookupKey (sessionKey sid kind w) st.entries with
  | some j => exact ⟨st, j, get_session_history_hit hc⟩
  | none => exact ⟨_, _, get_session_history_miss_known hc hf⟩

theorem freshInstance_of_unknown {kind : String} {w : Int}
    (hk : kind ∉ knownKinds) : freshInstance kind w = none := by
  simp only [knownKinds, List.mem_cons, List.not_mem_nil, or_false, not_or] at hk
  obtain ⟨h1, h2, h3, h4⟩ := hk
  simp [freshInstance, h1, h2, h3, h4]

theorem lookup_write_handler {r : Nat} {x : GeminiCallbackHandler} :
    ∀ {heap : HandlerHeap}, (lookupHandler r heap).isSome →
      lookupHandler r (writeHandler r x heap) = some x := by
  intro heap
  induction heap with
  | nil => intro h; simp [lookupHandler] at h
  | cons p rest ih =>
      obtain ⟨r0, h0⟩ := p
      intro h
      by_cases hr : r0 = r
      · simp [writeHandler, lookupHandler, hr]
      · simp only [writeHandler, if_neg hr, lookupHandler]
        apply ih
        simpa [lookupHandler, if_neg hr] using h

/-- C1: on the detached-summary-but-no-overflow path the code does NOT
re-prepend the detached summary — evaluating `add_messages` at `k = 3` on the
history `[System "S", Human "a"]` with new batch `[AI "b"]` (no overflow:
2 ≤ 3) yields `[Human "a", AI "b"]` for every LLM: the old summary `System
"S"` is silently dropped and no summarization call is made. -/
theorem summaryBuffer_detached_summary_dropped_on_no_overflow
    (llm : Option Msg → List Msg → String) :
    ConversationSummaryBufferMessageHistory.add_messages llm
        ⟨[⟨Role.system, "S"⟩, ⟨Role.human, "a"⟩], 3⟩ [⟨Role.ai, "b"⟩]
      = (⟨[⟨Role.human, "a"⟩, ⟨Role.ai, "b"⟩], 3⟩, 0) := rfl

/-- C2: with window `k = 0`, appending one message to an empty
`BufferWindowMessageHistory` leaves that message in the history (the slice
`[-0:]` is the whole list), so reading it back is NOT empty, contrary to the
claim that `k ≤ 0` yields an always-empty history. -/
theorem bufferWindow_k_zero_keeps_all_messages :
    (BufferWindowMessageHistory.add_messages ⟨[], 0⟩ [⟨Role.human, "hi"⟩]).messages
        = [⟨Role.human, "hi"⟩] ∧
    (BufferWindowMessageHistory.add_messages ⟨[], 0⟩ [⟨Role.human, "hi"⟩]).messages
        ≠ [] := by
  exact ⟨rfl, by decide⟩

/-- C3: if the LLM fails during the generate invocation of a turn (for a
recognised policy kind and a non-blank message), `chat` returns normally, the
reply is `"Error: " ++ e` (so it starts with `"Error:"`), and the gradio
history gains exactly one user message and one assistant message carrying
that error text. -/
theorem chat_llm_failure_appends_error_turn
    (sumR : List Msg → List Msg → String) (sumB : Option Msg → List Msg → String)
    (message session_id memory_type : String) (window_size : Int)
    (history : List ChatTurn) (st : ChatStores) (e : String)
    (post : Except String Unit)
    (hmsg : pyStrip message ≠ "") (hk : memory_type ∈ knownKinds) :
    (chat sumR sumB message history memory_type window_size session_id st
        (Except.error e) post).history
      = history ++ [⟨"user", message⟩, ⟨"assistant", "Error: " ++ e⟩] ∧
    (chat sumR sumB message history memory_type window_size session_id st
        (Except.error e) post).response_text = "Error: " ++ e ∧
    ∃ rest, (chat sumR sumB message history memory_type window_size session_id st
        (Except.error e) post).response_text = "Error:" ++ rest := by
  obtain ⟨st1, i, hget⟩ :=
    @get_session_history_known_ok session_id memory_type window_size st hk
  have hchain : chain_invoke sumR sumB message session_id memory_type window_size
      st (Except.error e) = (st1, Except.error e) := by
    simp [chain_invoke, hget]
  refine ⟨?_, ?_, ⟨" " ++ e, ?_⟩⟩ <;>
    simp [chat, hmsg, hchain, ← String.append_assoc]

/-- Witness for C3 at concrete inputs. -/
theorem chat_llm_failure_appends_error_turn_witness :
    (pyStrip "hi" ≠ "" ∧ "Sliding Window" ∈ knownKinds) ∧
    ((chat (fun _ _ => "") (fun _ _ => "") "hi" [] "Sliding Window" 2 "s"
        ⟨[], [], 0⟩ (Except.error "boom") (Except.ok ())).history
      = [⟨"user", "hi"⟩, ⟨"assistant", "Error: boom"⟩] ∧
    (chat (fun _ _ => "") (fun _ _ => "") "hi" [] "Sliding Window" 2 "s"
        ⟨[], [], 0⟩ (Except.error "boom") (Except.ok ())).response_text
      = "Error: boom" ∧
    ∃ rest, (chat (fun _ _ => "") (fun _ _ => "") "hi" [] "Sliding Window" 2 "s"
        ⟨[], [], 0⟩ (Except.error "boom") (Except.ok ())).response_text
      = "Error:" ++ rest) :=
  ⟨⟨by decide, by decide⟩, by
    have := chat_llm_failure_appends_error_turn (fun _ _ => "") (fun _ _ => "")
      "hi" "s" "Sliding Window" 2 [] ⟨[], [], 0⟩ "boom" (Except.ok ())
      (by decide) (by decide)
    simpa using this⟩

/-- C4 counterexample: requesting the unknown policy kind `"Vector DB"`
during a turn does NOT propagate as a hard failure to the caller — `chat`
returns normally and the `KeyError` is absorbed into inline conversational
error text (`"Error: ..."`), contradicting the claim that it is "not absorbed into
inline conversational error text". -/
theorem chat_unknown_kind_absorbed_concrete :
    (chat (fun _ _ => "") (fun _ _ => "") "hello" [] "Vector DB" 6 "s"
        ⟨[], [], 0⟩ (Except.ok "fine") (Except.ok ())).response_text
      = "Error: KeyError: s_Vector DB_6" ∧
    (chat (fun _ _ => "") (fun _ _ => "") "hello" [] "Vector DB" 6 "s"
        ⟨[], [], 0⟩ (Except.ok "fine") (Except.ok ())).history
      = [⟨"user", "hello"⟩, ⟨"assistant", "Error: KeyError: s_Vector DB_6"⟩] := by
  exact ⟨by decide, by decide⟩

/-- C4 amended: `get_session_history` itself does fail fast on an unknown
policy kind — it raises `KeyError` and creates no entry, never silently
defaulting to some policy — but inside a chat turn that exception is caught
by the blanket per-turn handler and surfaced as inline `"Error: ..."` reply
text instead of propagating to the caller. -/
theorem unknown_kind_hard_failure_absorbed_in_chat
    (sumR : List Msg → List Msg → String) (sumB : Option Msg → List Msg → String)
    (message session_id memory_type : String) (window_size : Int)
    (history : List ChatTurn) (st : ChatStores)
    (llmResult : Except String String) (post : Except String Unit)
    (hmsg : pyStrip message ≠ "") (hk : memory_type ∉ knownKinds)
    (habs : lookupKey (sessionKey session_id memory_type window_size) st.entries
      = none) :
    get_session_history session_id memory_type window_size st
      = Except.error
          ("KeyError: " ++ sessionKey session_id memory_type window_size) ∧
    (chat sumR sumB message history memory_type window_size session_id st
        llmResult post).history
      = history ++ [⟨"user", message⟩,
          ⟨"assistant", "Error: " ++
            ("KeyError: " ++ sessionKey session_id memory_type window_size)⟩] ∧
    (chat sumR sumB message history memory_type window_size session_id st
        llmResult post).response_text
      = "Error: " ++
          ("KeyError: " ++ sessionKey session_id memory_type window_size) := by
  have hget := get_session_history_miss_unknown habs (freshInstance_of_unknown hk)
  have hchain : chain_invoke sumR sumB message session_id memory_type window_size
      st llmResult
      = (st, Except.error
          ("KeyError: " ++ sessionKey session_id memory_type window_size)) := by
    simp [chain_invoke, hget]
  exact ⟨hget, by simp [chat, hmsg, hchain], by simp [chat, hmsg, hchain]⟩

/-- Witness for the amended C4 at concrete inputs. -/
theorem unknown_kind_hard_failure_absorbed_in_chat_witness :
    (pyStrip "hello" ≠ "" ∧ "Vector DB" ∉ knownKinds ∧
      lookupKey (sessionKey "s" "Vector DB" 6)
        (⟨[], [], 0⟩ : ChatStores).entries = none) ∧
    (get_session_history "s" "Vector DB" 6 ⟨[], [], 0⟩
      = Except.error ("KeyError: " ++ sessionKey "s" "Vector DB" 6) ∧
    (chat (fun _ _ => "") (fun _ _ => "") "hello" [] "Vector DB" 6 "s"
        ⟨[], [], 0⟩ (Except.ok "fine") (Except.ok ())).history
      = [] ++ [⟨"user", "hello"⟩,
          ⟨"assistant", "Error: " ++ ("KeyError: " ++ sessionKey "s" "Vector DB" 6)⟩] ∧
    (chat (fun _ _ => "") (fun _ _ => "") "hello" [] "Vector DB" 6 "s"
        ⟨[], [], 0⟩ (Except.ok "fine") (Except.ok ())).response_text
      = "Error: " ++ ("KeyError: " ++ sessionKey "s" "Vector DB" 6)) :=
  ⟨⟨by decide, by decide, by decide⟩,
    unknown_kind_hard_failure_absorbed_in_chat (fun _ _ => "") (fun _ _ => "")
      "hello" "s" "Vector DB" 6 [] ⟨[], [], 0⟩ (Except.ok "fine") (Except.ok ())
      (by decide) (by decide) (by decide)⟩

/-- C5 counterexample: `on_llm_end` on a result with no usage metadata DOES
increment the call counter (`successful_requests` goes from 0 to 1),
contradicting "a call is counted only if usage metadata is present". -/
theorem on_llm_end_counts_call_without_usage_concrete :
    (GeminiCallbackHandler.on_llm_end ⟨0, 0, 0, 0⟩ ⟨none⟩).successful_requests = 1 ∧
    ¬ ((GeminiCallbackHandler.on_llm_end ⟨0, 0, 0, 0⟩ ⟨none⟩).successful_requests
        = (⟨0, 0, 0, 0⟩ : GeminiCallbackHandler).successful_requests) := by
  exact ⟨rfl, by decide⟩

/-- C5 amended: recording a generation result that carries no usage metadata
leaves the prompt, completion and total token counters unchanged (zero
contribution), but the call counter `successful_requests` is incremented
unconditionally — every `on_llm_end` counts as a call, with or without usage
metadata. -/
theorem on_llm_end_no_usage_only_increments_calls
    (h : GeminiCallbackHandler) (response : LLMResult)
    (hres : response.llm_output.bind LLMOutput.usage_metadata = none) :
    h.on_llm_end response
      = { h with successful_requests := h.successful_requests + 1 } := by
  unfold GeminiCallbackHandler.on_llm_end
  cases hout : response.llm_output with
  | none => simp [hout]
  | some out =>
      rw [hout] at hres
      have hres2 : out.usage_metadata = none := by simpa using hres
      simp [hout, hres2]

/-- Witness for the amended C5 at concrete inputs (usage-metadata key absent
from a present `llm_output` dict). -/
theorem on_llm_end_no_usage_only_increments_calls_witness :
    ((⟨some ⟨none⟩⟩ : LLMResult).llm_output.bind LLMOutput.usage_metadata = none) ∧
    GeminiCallbackHandler.on_llm_end ⟨10, 4, 6, 2⟩ ⟨some ⟨none⟩⟩ = ⟨10, 4, 6, 3⟩ :=
  ⟨rfl, on_llm_end_no_usage_only_increments_calls ⟨10, 4, 6, 2⟩ ⟨some ⟨none⟩⟩ rfl⟩

/-- C6: every `add_messages` on a `ConversationSummaryMessageHistory` leaves
exactly one message, that message is a System message, and exactly one LLM
summarization call is made — for every LLM, prior state, and batch. -/
theorem recursive_summary_always_single_system_message
    (llm : List Msg → List Msg → String) (h : ConversationSummaryMessageHistory)
    (batch : List Msg) :
    (h.add_messages llm batch).1.messages.length = 1 ∧
    (∀ m ∈ (h.add_messages llm batch).1.messages, m.role = Role.system) ∧
    (h.add_messages llm batch).2 = 1 := by
  refine ⟨rfl, ?_, rfl⟩
  intro m hm
  simp only [ConversationSummaryMessageHistory.add_messages,
    List.mem_singleton] at hm
  rw [hm]

/-- C7: starting from an empty `SummaryWindow` history, any sequence of
appends of non-System (verbatim) messages whose total count stays ≤ k — in
particular exactly k, the boundary being strict — produces no summary
message, makes no LLM call, and leaves the history equal to all appended
messages in order. -/
theorem summaryBuffer_no_overflow_verbatim
    (llm : Option Msg → List Msg → String) (k : Int)
    (batches : List (List Msg))
    (hsys : ∀ m ∈ batches.flatten, m.role ≠ Role.system)
    (hlen : (batches.flatten.length : Int) ≤ k) :
    (runAppends llm ⟨[], k⟩ batches).1.messages = batches.flatten ∧
    (runAppends llm ⟨[], k⟩ batches).2 = 0 ∧
    ∀ m ∈ (runAppends llm ⟨[], k⟩ batches).1.messages, m.role ≠ Role.system := by
  have hrun := runAppends_no_overflow llm k batches [] 0
    (by intro m hm; cases hm) hsys (by simpa using hlen)
  unfold runAppends
  rw [hrun]
  exact ⟨by simp, rfl, by simpa using hsys⟩

/-- Witness for C7: two one-message appends with k exactly 2 (the boundary
case): no summary, no LLM call, history in order. -/
theorem summaryBuffer_no_overflow_verbatim_witness :
    ((∀ m ∈ ([[⟨Role.human, "a"⟩], [⟨Role.ai, "b"⟩]] : List (List Msg)).flatten,
        m.role ≠ Role.system) ∧
      ((([[⟨Role.human, "a"⟩], [⟨Role.ai, "b"⟩]] : List (List Msg)).flatten.length : Int)
        ≤ 2)) ∧
    ((runAppends (fun _ _ => "SUM") ⟨[], 2⟩
        [[⟨Role.human, "a"⟩], [⟨Role.ai, "b"⟩]]).1.messages
      = [⟨Role.human, "a"⟩, ⟨Role.ai, "b"⟩] ∧
    (runAppends (fun _ _ => "SUM") ⟨[], 2⟩
        [[⟨Role.human, "a"⟩], [⟨Role.ai, "b"⟩]]).2 = 0 ∧
    ∀ m ∈ (runAppends (fun _ _ => "SUM") ⟨[], 2⟩
        [[⟨Role.human, "a"⟩], [⟨Role.ai, "b"⟩]]).1.messages,
      m.role ≠ Role.system) :=
  ⟨⟨by decide, by decide⟩, by
    have := summaryBuffer_no_overflow_verbatim (fun _ _ => "SUM") 2
      [[⟨Role.human, "a"⟩], [⟨Role.ai, "b"⟩]] (by decide) (by decide)
    simpa using this⟩

/-- C8: the get-or-create operation of the session store, called again with the identical
(session id, kind, window) key, returns the identity-same instance id and an
unchanged store; called with a different window size (whose key is not yet
present) for the same session id and kind, it returns a distinct id bound to
an independently empty instance. -/
theorem session_store_get_or_create_identity
    {st : ChatStores} {sid kind : String} {w1 w2 : Int} {st1 : ChatStores}
    {i1 : Nat}
    (hwf : st.WF) (hk : kind ∈ knownKinds) (hw : w1 ≠ w2)
    (h2 : lookupKey (sessionKey sid kind w2) st.entries = none)
    (h1 : get_session_history sid kind w1 st = Except.ok (st1, i1)) :
    get_session_history sid kind w1 st1 = Except.ok (st1, i1) ∧
    ∃ st2 i2 inst, get_session_history sid kind w2 st1 = Except.ok (st2, i2) ∧
      i2 ≠ i1 ∧ lookupId i2 st2.heap = some inst ∧ inst.messages = [] :=
  get_or_create_scenario hwf hk hw h2 h1

/-- Witness for C8 at concrete inputs: an empty store, kind Sliding Window,
windows 2 and 3. -/
theorem session_store_get_or_create_identity_witness :
    ((⟨[], [], 0⟩ : ChatStores).WF ∧ "Sliding Window" ∈ knownKinds ∧
      (2 : Int) ≠ 3 ∧
      lookupKey (sessionKey "s" "Sliding Window" 3)
        (⟨[], [], 0⟩ : ChatStores).entries = none ∧
      get_session_history "s" "Sliding Window" 2 ⟨[], [], 0⟩
        = Except.ok (⟨[(sessionKey "s" "Sliding Window" 2, 0)],
            [(0, PolicyInstance.bufferWindow ⟨[], 2⟩)], 1⟩, 0)) ∧
    (get_session_history "s" "Sliding Window" 2
        ⟨[(sessionKey "s" "Sliding Window" 2, 0)],
          [(0, PolicyInstance.bufferWindow ⟨[], 2⟩)], 1⟩
      = Except.ok (⟨[(sessionKey "s" "Sliding Window" 2, 0)],
          [(0, PolicyInstance.bufferWindow ⟨[], 2⟩)], 1⟩, 0) ∧
    ∃ st2 i2 inst, get_session_history "s" "Sliding Window" 3
        ⟨[(sessionKey "s" "Sliding Window" 2, 0)],
          [(0, PolicyInstance.bufferWindow ⟨[], 2⟩)], 1⟩
      = Except.ok (st2, i2) ∧
      i2 ≠ 0 ∧ lookupId i2 st2.heap = some inst ∧ inst.messages = []) :=
  ⟨⟨fun p hp => absurd hp (List.not_mem_nil p), by decide, by decide, rfl, rfl⟩,
   @session_store_get_or_create_identity ⟨[], [], 0⟩ "s" "Sliding Window" 2 3
     ⟨[(sessionKey "s" "Sliding Window" 2, 0)],
       [(0, PolicyInstance.bufferWindow ⟨[], 2⟩)], 1⟩ 0
     (fun p hp => absurd hp (List.not_mem_nil p)) (by decide) (by decide)
     rfl rfl⟩

/-- C9: for every recognised policy kind — including In-Memory (No Limit)
and Recursive Summarization, whose policies ignore the window parameter —
the store key includes the window size, so the keys for two different window
sizes are distinct strings, and requesting the same session id and kind with
a different (not yet present) window size selects a distinct, fresh, empty
instance instead of the existing one. -/
theorem session_store_keys_by_window_all_kinds
    {st : ChatStores} {sid kind : String} {w1 w2 : Int} {st1 : ChatStores}
    {i1 : Nat}
    (hwf : st.WF)
    (hk : kind = "In-Memory (No Limit)" ∨ kind = "Sliding Window" ∨
      kind = "Recursive Summarization" ∨ kind = "Summary + Sliding Window")
    (hw : w1 ≠ w2)
    (h2 : lookupKey (sessionKey sid kind w2) st.entries = none)
    (h1 : get_session_history sid kind w1 st = Except.ok (st1, i1)) :
    sessionKey sid kind w1 ≠ sessionKey sid kind w2 ∧
    ∃ st2 i2 inst, get_session_history sid kind w2 st1 = Except.ok (st2, i2) ∧
      i2 ≠ i1 ∧ lookupId i2 st2.heap = some inst ∧ inst.messages = [] := by
  have hk2 : kind ∈ knownKinds := by
    simp only [knownKinds, List.mem_cons, List.not_mem_nil, or_false]
    exact hk
  exact ⟨fun hc => hw (sessionKey_inj_window hc),
    (get_or_create_scenario hwf hk2 hw h2 h1).2⟩

/-- Witness for C9 at concrete inputs: kind In-Memory (No Limit) — which
ignores the window parameter — with windows 2 and 3. -/
theorem session_store_keys_by_window_all_kinds_witness :
    ((⟨[], [], 0⟩ : ChatStores).WF ∧
      ("In-Memory (No Limit)" = "In-Memory (No Limit)" ∨
        "In-Memory (No Limit)" = "Sliding Window" ∨
        "In-Memory (No Limit)" = "Recursive Summarization" ∨
        "In-Memory (No Limit)" = "Summary + Sliding Window") ∧
      (2 : Int) ≠ 3 ∧
      lookupKey (sessionKey "u" "In-Memory (No Limit)" 3)
        (⟨[], [], 0⟩ : ChatStores).entries = none ∧
      get_session_history "u" "In-Memory (No Limit)" 2 ⟨[], [], 0⟩
        = Except.ok (⟨[(sessionKey "u" "In-Memory (No Limit)" 2, 0)],
            [(0, PolicyInstance.inMemory [])], 1⟩, 0)) ∧
    (sessionKey "u" "In-Memory (No Limit)" 2
        ≠ sessionKey "u" "In-Memory (No Limit)" 3 ∧
    ∃ st2 i2 inst, get_session_history "u" "In-Memory (No Limit)" 3
        ⟨[(sessionKey "u" "In-Memory (No Limit)" 2, 0)],
          [(0, PolicyInstance.inMemory [])], 1⟩
      = Except.ok (st2, i2) ∧
      i2 ≠ 0 ∧ lookupId i2 st2.heap = some inst ∧ inst.messages = []) :=
  ⟨⟨fun p hp => absurd hp (List.not_mem_nil p), Or.inl rfl, by decide, rfl, rfl⟩,
   @session_store_keys_by_window_all_kinds ⟨[], [], 0⟩ "u" "In-Memory (No Limit)"
     2 3
     ⟨[(sessionKey "u" "In-Memory (No Limit)" 2, 0)],
       [(0, PolicyInstance.inMemory [])], 1⟩ 0
     (fun p hp => absurd hp (List.not_mem_nil p)) (Or.inl rfl) (by decide)
     rfl rfl⟩

/-- C10: `__copy__` and `__deepcopy__` of `GeminiCallbackHandler` return the
identity-same reference without touching the heap, so usage recorded through
the copy is observable through the original reference. -/
theorem handler_copy_identity
    (heap : HandlerHeap) (r : Nat) (response : LLMResult)
    (h0 : GeminiCallbackHandler) (hl : lookupHandler r heap = some h0) :
    GeminiCallbackHandler.pyCopy heap r = (heap, r) ∧
    GeminiCallbackHandler.pyDeepcopy heap r = (heap, r) ∧
    lookupHandler r
        (recordLLMEnd (GeminiCallbackHandler.pyDeepcopy heap r).1
          (GeminiCallbackHandler.pyDeepcopy heap r).2 response)
      = some (h0.on_llm_end response) := by
  refine ⟨rfl, rfl, ?_⟩
  simp only [GeminiCallbackHandler.pyDeepcopy, recordLLMEnd, hl]
  exact lookup_write_handler (by simp [hl])

/-- Witness for C10 at concrete inputs. -/
theorem handler_copy_identity_witness :
    (lookupHandler 0 [(0, (⟨0, 0, 0, 0⟩ : GeminiCallbackHandler))]
      = some ⟨0, 0, 0, 0⟩) ∧
    (GeminiCallbackHandler.pyCopy [(0, ⟨0, 0, 0, 0⟩)] 0
      = ([(0, ⟨0, 0, 0, 0⟩)], 0) ∧
    GeminiCallbackHandler.pyDeepcopy [(0, ⟨0, 0, 0, 0⟩)] 0
      = ([(0, ⟨0, 0, 0, 0⟩)], 0) ∧
    lookupHandler 0
        (recordLLMEnd
          (GeminiCallbackHandler.pyDeepcopy [(0, ⟨0, 0, 0, 0⟩)] 0).1
          (GeminiCallbackHandler.pyDeepcopy [(0, ⟨0, 0, 0, 0⟩)] 0).2 ⟨none⟩)
      = some (GeminiCallbackHandler.on_llm_end ⟨0, 0, 0, 0⟩ ⟨none⟩)) :=
  ⟨rfl, handler_copy_identity [(0, ⟨0, 0, 0, 0⟩)] 0 ⟨none⟩ ⟨0, 0, 0, 0⟩ rfl⟩
